import Mathlib

/-!
Shallow embedding of `src/meetings/from_gcal.py` (the availability-intersection
core and the calendar ranker) and proofs about it.

Modelling conventions:
* An arrow datetime (and every ISO-8601 string the code passes around, since
  `arrow.get`/`isoformat` round-trip) is a `DateTime`: the calendar date is an
  epoch day number (the `YYYY-MM-DD` rendering is a bijection on day numbers,
  so `format("YYYY-MM-DD")` equality is `day` equality and `shift(days=+1)` is
  `day + 1`), plus wall-clock hour/minute/second and a UTC offset in minutes.
* Comparison of two arrow datetimes compares the absolute instants they
  denote, i.e. `dtToSec` values (seconds since the epoch, offset applied).
* `arrow.format("HH:mm")` is the (hour, minute) pair: hours and minutes are
  zero-padded two-digit fields, so string equality is pair equality.
* The `while` loop of `list_availabilities_btwn_dates` diverges when the begin
  date is after the end date; the embedding returns `Option`, with `none`
  for divergence, driven by exactly enough fuel for the terminating case.
* `reorg_instance`'s `assert False` is modelled as `none`.
-/

namespace Gcal

/-- An arrow datetime: calendar date as an epoch day number, wall-clock
hour/minute/second, and a UTC offset in minutes. -/
structure DateTime where
  day : Nat
  hour : Nat
  minute : Nat
  second : Nat
  offset : Int
deriving DecidableEq, Repr

/-- The absolute instant a `DateTime` denotes, in seconds since the epoch:
arrow comparison operators compare these values. -/
def dtToSec (d : DateTime) : Int :=
  (d.day : Int) * 86400 + (d.hour : Int) * 3600 + (d.minute : Int) * 60
    + (d.second : Int) - d.offset * 60

/-- Boolean `<` on arrow datetimes (absolute instants). -/
def dtLt (a b : DateTime) : Bool := dtToSec a < dtToSec b

/-- Boolean `>` on arrow datetimes (absolute instants). -/
def dtGt (a b : DateTime) : Bool := dtToSec b < dtToSec a

/-- `arrow.format("HH:mm")`: the zero-padded rendering is determined by, and
determines, the (hour, minute) pair. -/
def fmtHHmm (d : DateTime) : Nat × Nat := (d.hour, d.minute)

/-- `merge_date_time` (from_gcal.py:231): keep the date, second and timezone
offset of `isodate`, replacing only the hour and minute with `isotime`'s. -/
def merge_date_time (isodate isotime : DateTime) : DateTime :=
  { isodate with hour := isotime.hour, minute := isotime.minute }

/-- One `{'bt': ..., 'et': ...}` dict produced by
`list_availabilities_btwn_dates`. -/
structure Avail where
  bt : DateTime
  et : DateTime
deriving DecidableEq, Repr

/-- The `while` loop of `list_availabilities_btwn_dates` (from_gcal.py:283):
starting from `curr`, repeatedly shift one day forward and append a window,
until the current calendar date equals `edDay`.  `fuel` bounds the number of
iterations; `none` models the loop running out of fuel (the Python loop
diverges when `curr.day > edDay`, since shifting only increases the date). -/
def availsGo (fuel : Nat) (curr : DateTime) (edDay : Nat)
    (iso_begin_time iso_end_time : DateTime) : Option (List Avail) :=
  match fuel with
  | 0 => if curr.day = edDay then some [] else none
  | fuel' + 1 =>
    if curr.day = edDay then some []
    else
      (availsGo fuel' { curr with day := curr.day + 1 } edDay iso_begin_time iso_end_time).map
        (fun rest =>
          { bt := merge_date_time { curr with day := curr.day + 1 } iso_begin_time,
            et := merge_date_time { curr with day := curr.day + 1 } iso_end_time } :: rest)

/-- `list_availabilities_btwn_dates` (from_gcal.py:249): one begin/end window
per calendar day from the begin date to the end date.  The first window is
built before the loop; the loop is run with fuel `ed.day - bd.day`, which is
exactly the number of iterations the Python loop performs when it terminates;
`none` models divergence (begin date after end date). -/
def list_availabilities_btwn_dates (iso_begin_date iso_end_date
    iso_begin_time iso_end_time : DateTime) : Option (List Avail) :=
  (availsGo (iso_end_date.day - iso_begin_date.day) iso_begin_date iso_end_date.day
      iso_begin_time iso_end_time).map
    (fun rest =>
      { bt := merge_date_time iso_begin_date iso_begin_time,
        et := merge_date_time iso_begin_date iso_end_time } :: rest)

/-- The dict returned by `reorg_instance` (from_gcal.py:180). -/
structure NormalizedInstance where
  event_id : String
  summary : String
  begin_datetime : DateTime
  end_datetime : DateTime
deriving DecidableEq, Repr

/-- The per-window test inside the loop of `really_between_times`
(from_gcal.py:221): the iteration `continue`s (no overlap) exactly when the
instance lies entirely strictly before the window or entirely strictly after
it; otherwise it reports busy. -/
def overlapsWindow (instance_begin instance_end : DateTime) (a : Avail) : Bool :=
  !((dtLt instance_begin a.bt && dtLt instance_end a.bt)
    || (dtGt instance_begin a.et && dtGt instance_end a.et))

/-- `really_between_times` (from_gcal.py:188): if the begin and end times of
day agree at `HH:mm` precision, every instance is busy; otherwise expand the
daily windows over the instance's own date span and return true iff some
window overlaps.  `none` models divergence of the window expansion. -/
def really_between_times (inst : NormalizedInstance)
    (begin_time end_time : DateTime) : Option Bool :=
  if fmtHHmm begin_time = fmtHHmm end_time then
    some true
  else
    (list_availabilities_btwn_dates inst.begin_datetime inst.end_datetime
        begin_time end_time).map
      (fun avails =>
        avails.any (fun a => overlapsWindow inst.begin_datetime inst.end_datetime a))

/-- The timing shape of a raw provider event record: an instant pair (both
`start` and `end` carry a `dateTime` key), a date pair (both carry a `date`
key; the date string parses to midnight, i.e. hour/minute/second all 0, and
`replace(tzinfo=tz.tzlocal())` keeps the wall clock while installing the
local offset — so only the day number is needed here), or neither key on
`start` (the `assert False` branch). -/
inductive RawTiming where
  | instants (b e : DateTime)
  | dates (b e : Nat)
  | missing
deriving DecidableEq, Repr

/-- A raw event-instance record as delivered by the provider: opaque id,
summary, and one of the timing shapes. -/
structure RawInstance where
  id : String
  summary : String
  timing : RawTiming
deriving DecidableEq, Repr

/-- `arrow.get('00:00', 'HH:mm')`: a datetime whose only used fields are
hour 0 and minute 0. -/
def time0000 : DateTime := { day := 0, hour := 0, minute := 0, second := 0, offset := 0 }

/-- `arrow.get('23:59', 'HH:mm')`: a datetime whose only used fields are
hour 23 and minute 59. -/
def time2359 : DateTime := { day := 0, hour := 23, minute := 59, second := 0, offset := 0 }

/-- `reorg_instance` (from_gcal.py:154), parameterized by the local timezone
offset `tzlocal` (minutes): copy instant pairs through unchanged; turn a date
pair into 00:00 local on the start date and 23:59 local on the end date;
`none` models the fatal `assert False` when neither timing form is present. -/
def reorg_instance (tzlocal : Int) (inst : RawInstance) : Option NormalizedInstance :=
  match inst.timing with
  | .instants b e =>
    some { event_id := inst.id, summary := inst.summary,
           begin_datetime := b, end_datetime := e }
  | .dates b e =>
    some { event_id := inst.id, summary := inst.summary,
           begin_datetime :=
             merge_date_time { day := b, hour := 0, minute := 0, second := 0, offset := tzlocal }
               time0000,
           end_datetime :=
             merge_date_time { day := e, hour := 0, minute := 0, second := 0, offset := tzlocal }
               time2359 }
  | .missing => none

/-- A record of the first loop of `list_instances_btwn_times_in_dates`
(from_gcal.py:85): the fields it reads off each raw event. -/
structure PreEvent where
  event_id : String
  transparent : Bool
  recurs : Bool
deriving DecidableEq, Repr

/-- The already-fetched provider data the pipeline consumes: the events
listed per calendar id, the recurrence instances per (calendar id, event id),
and the single instance fetched for a non-recurring event (`none` models a
falsy response, skipped by `if instance:`). -/
structure GService where
  eventsList : String → List PreEvent
  eventInstances : String → String → List RawInstance
  eventGet : String → String → Option RawInstance

/-- The first loop of `list_instances_btwn_times_in_dates` (from_gcal.py:82):
for each selected calendar, list its events, drop the transparent ones, and
record (calendar id, event record) in discovery order. -/
def pre_events (service : GService) (selected_cal : List String) :
    List (String × PreEvent) :=
  selected_cal.flatMap (fun cal_id =>
    ((service.eventsList cal_id).filter (fun e => !e.transparent)).map
      (fun e => (cal_id, e)))

/-- The raw instances the second loop examines for one pre-event: all
recurrence instances for a recurring event, the single fetched instance (if
truthy) for a non-recurring one. -/
def instancesOf (service : GService) (p : String × PreEvent) : List RawInstance :=
  if p.2.recurs then
    service.eventInstances p.1 p.2.event_id
  else
    match service.eventGet p.1 p.2.event_id with
    | some raw => [raw]
    | none => []

/-- The body of the second loop of `list_instances_btwn_times_in_dates` over
one pre-event's raw instances: reorganize each and keep it iff
`really_between_times` passes.  `none` propagates a reorganization assertion
failure or a divergent busy test. -/
def collectLoop (tzlocal : Int) (begin_time end_time : DateTime) :
    List RawInstance → Option (List NormalizedInstance)
  | [] => some []
  | raw :: raws =>
    match reorg_instance tzlocal raw with
    | none => none
    | some inst =>
      match really_between_times inst begin_time end_time with
      | none => none
      | some b =>
        (collectLoop tzlocal begin_time end_time raws).map
          (fun rest => if b then inst :: rest else rest)

/-- The second loop of `list_instances_btwn_times_in_dates`
(from_gcal.py:107): process each pre-event in order, concatenating the
retained instances. -/
def collectPre (tzlocal : Int) (service : GService)
    (begin_time end_time : DateTime) :
    List (String × PreEvent) → Option (List NormalizedInstance)
  | [] => some []
  | p :: ps =>
    (collectLoop tzlocal begin_time end_time (instancesOf service p)).bind
      (fun here =>
        (collectPre tzlocal service begin_time end_time ps).map
          (fun rest => here ++ rest))

/-- `list_instances_btwn_times_in_dates` (from_gcal.py:56) over
already-fetched provider data: both loops composed. -/
def list_instances_btwn_times_in_dates (tzlocal : Int) (service : GService)
    (selected_cal : List String) (begin_time end_time : DateTime) :
    Option (List NormalizedInstance) :=
  collectPre tzlocal service begin_time end_time (pre_events service selected_cal)

/-- The daily window on calendar day `d`, with all non-day fields (second,
offset) inherited from `base`: the shape of every entry produced by
`list_availabilities_btwn_dates`. -/
def availOn (base : DateTime) (d : Nat) (bt et : DateTime) : Avail :=
  { bt := merge_date_time { base with day := d } bt,
    et := merge_date_time { base with day := d } et }

/-- A calendar dict as built by `list_calendars` (from_gcal.py:45). -/
structure CalDesc where
  kind : String
  id : String
  summary : String
  selected : Bool
  primary : Bool
deriving DecidableEq, Repr

/-- `cal_sort_key` (from_gcal.py:137): `" "` sorts before `"X"`, and the key
tuple is (primary key, selected key, summary), compared lexicographically. -/
def cal_sort_key (cal : CalDesc) : String × String × String :=
  ((if cal.primary then " " else "X"), (if cal.selected then " " else "X"), cal.summary)

/-- Python tuple `<=` on the string triples produced by `cal_sort_key`:
lexicographic, each component by string order. -/
def keyLe (a b : String × String × String) : Bool :=
  a.1 < b.1 || (a.1 = b.1 && (a.2.1 < b.2.1 || (a.2.1 = b.2.1 && !(b.2.2 < a.2.2))))

/-- The `sorted(result, key=cal_sort_key)` call of `list_calendars`
(from_gcal.py:53): Python's `sorted` is the stable ascending sort, i.e.
`List.mergeSort`. -/
def rank (cals : List CalDesc) : List CalDesc :=
  cals.mergeSort (fun a b => keyLe (cal_sort_key a) (cal_sort_key b))

/-- Reorganize one raw instance and keep it exactly when the busy test
passes: the per-instance action of the second loop of
`list_instances_btwn_times_in_dates`, as a single `Option`-valued step
(`none` when the instance is dropped or the processing fails). -/
def keepBusy (tzlocal : Int) (begin_time end_time : DateTime)
    (raw : RawInstance) : Option NormalizedInstance :=
  (reorg_instance tzlocal raw).bind (fun inst =>
    (really_between_times inst begin_time end_time).bind
      (fun b => bif b then some inst else none))

/-- Fixture: the spec's calendar A (primary, selected). -/
def calA : CalDesc :=
  { kind := "calendar#calendarListEntry", id := "a", summary := "A",
    selected := true, primary := true }

/-- Fixture: the spec's calendar B (not primary, selected). -/
def calB : CalDesc :=
  { kind := "calendar#calendarListEntry", id := "b", summary := "B",
    selected := true, primary := false }

/-- Fixture: the spec's calendar C (not primary, not selected). -/
def calC : CalDesc :=
  { kind := "calendar#calendarListEntry", id := "c", summary := "C",
    selected := false, primary := false }

/-- Fixture service for exercising the collection pipeline: one calendar
with a transparent event (busy timing), a recurring event with one busy
recurrence instance, and a non-recurring event outside the daily window. -/
def svcW : GService :=
  { eventsList := fun cal_id =>
      if cal_id = "cal1" then
        [ { event_id := "ev_t", transparent := true, recurs := false },
          { event_id := "ev_r", transparent := false, recurs := true },
          { event_id := "ev_n", transparent := false, recurs := false } ]
      else [],
    eventInstances := fun _ event_id =>
      if event_id = "ev_r" then
        [ { id := "ev_r_1", summary := "recur",
            timing := .instants ⟨13, 10, 0, 0, 0⟩ ⟨13, 11, 0, 0, 0⟩ } ]
      else [],
    eventGet := fun _ event_id =>
      if event_id = "ev_n" then
        some { id := "ev_n", summary := "late",
               timing := .instants ⟨12, 19, 0, 0, 0⟩ ⟨12, 20, 0, 0, 0⟩ }
      else if event_id = "ev_t" then
        some { id := "ev_t", summary := "transp",
               timing := .instants ⟨12, 10, 0, 0, 0⟩ ⟨12, 11, 0, 0, 0⟩ }
      else none }

/-! Helper lemmas: closed form of the daily-window expansion. -/

theorem map_range_shift (g : Nat → Avail) (n : Nat) :
    g 0 :: (List.range n).map (fun j => g (j + 1)) = (List.range (n + 1)).map g := by
  rw [List.range_succ_eq_map, List.map_cons, List.map_map]
  rfl

theorem availsGo_spec : ∀ (n : Nat) (curr bt et : DateTime) (edDay : Nat),
    edDay = curr.day + n →
    availsGo n curr edDay bt et =
      some ((List.range n).map (fun j => availOn curr (curr.day + j + 1) bt et)) := by
  intro n
  induction n with
  | zero =>
    intro curr bt et edDay he
    subst he
    simp [availsGo]
  | succ n ih =>
    intro curr bt et edDay he
    have hne : ¬ curr.day = edDay := by omega
    have he' : edDay = ({ curr with day := curr.day + 1 } : DateTime).day + n := by
      show edDay = curr.day + 1 + n
      omega
    rw [availsGo, if_neg hne, ih { curr with day := curr.day + 1 } bt et edDay he',
      Option.map_some']
    rw [← map_range_shift (fun j => availOn curr (curr.day + j + 1) bt et) n]
    refine congrArg some (congrArg₂ List.cons rfl ?_)
    refine List.map_congr_left (fun j _ => ?_)
    have harith : curr.day + 1 + j + 1 = curr.day + (j + 1) + 1 := by omega
    show availOn curr (curr.day + 1 + j + 1) bt et = availOn curr (curr.day + (j + 1) + 1) bt et
    rw [harith]

theorem list_availabilities_spec (bd ed bt et : DateTime) (h : bd.day ≤ ed.day) :
    list_availabilities_btwn_dates bd ed bt et =
      some ((List.range (ed.day - bd.day + 1)).map
        (fun k => availOn bd (bd.day + k) bt et)) := by
  have hday : ed.day = bd.day + (ed.day - bd.day) := by omega
  rw [list_availabilities_btwn_dates,
    availsGo_spec (ed.day - bd.day) bd bt et ed.day hday, Option.map_some']
  rw [← map_range_shift (fun k => availOn bd (bd.day + k) bt et) (ed.day - bd.day)]
  rfl

/-- C1: for a normalized instance with begin ≤ end (as instants) and any
daily availability window `w`, the per-window test of `really_between_times`
reports overlap exactly unless the instance ends strictly before `w` begins
or begins strictly after `w` ends; in particular an instance with bounds
equal to the window's is busy, one ending exactly at the window's begin is
busy (given a well-formed window), and one ending strictly before the
window's begin is not busy on that window. -/
theorem claim_C1_overlap_characterization (inst : NormalizedInstance) (w : Avail)
    (h : dtToSec inst.begin_datetime ≤ dtToSec inst.end_datetime) :
    (overlapsWindow inst.begin_datetime inst.end_datetime w = true ↔
        ¬(dtToSec inst.end_datetime < dtToSec w.bt ∨
          dtToSec w.et < dtToSec inst.begin_datetime))
    ∧ (dtToSec inst.begin_datetime = dtToSec w.bt →
        dtToSec inst.end_datetime = dtToSec w.et →
        overlapsWindow inst.begin_datetime inst.end_datetime w = true)
    ∧ (dtToSec w.bt ≤ dtToSec w.et →
        dtToSec inst.end_datetime = dtToSec w.bt →
        overlapsWindow inst.begin_datetime inst.end_datetime w = true)
    ∧ (dtToSec inst.end_datetime < dtToSec w.bt →
        overlapsWindow inst.begin_datetime inst.end_datetime w = false) := by
  refine ⟨?_, ?_, ?_, ?_⟩ <;> simp [overlapsWindow, dtLt, dtGt] <;> omega

/-- Witness for C1 at a concrete instance 09:00–18:00 against the window
09:00–18:00 of the same day. -/
theorem claim_C1_witness :
    dtToSec ⟨0, 9, 0, 0, 0⟩ ≤ dtToSec ⟨0, 18, 0, 0, 0⟩ ∧
    ((overlapsWindow ⟨0, 9, 0, 0, 0⟩ ⟨0, 18, 0, 0, 0⟩ ⟨⟨0, 9, 0, 0, 0⟩, ⟨0, 18, 0, 0, 0⟩⟩ = true ↔
        ¬(dtToSec ⟨0, 18, 0, 0, 0⟩ < dtToSec ⟨0, 9, 0, 0, 0⟩ ∨
          dtToSec ⟨0, 18, 0, 0, 0⟩ < dtToSec ⟨0, 9, 0, 0, 0⟩))
    ∧ (dtToSec ⟨0, 9, 0, 0, 0⟩ = dtToSec ⟨0, 9, 0, 0, 0⟩ →
        dtToSec ⟨0, 18, 0, 0, 0⟩ = dtToSec ⟨0, 18, 0, 0, 0⟩ →
        overlapsWindow ⟨0, 9, 0, 0, 0⟩ ⟨0, 18, 0, 0, 0⟩ ⟨⟨0, 9, 0, 0, 0⟩, ⟨0, 18, 0, 0, 0⟩⟩ = true)
    ∧ (dtToSec ⟨0, 9, 0, 0, 0⟩ ≤ dtToSec ⟨0, 18, 0, 0, 0⟩ →
        dtToSec ⟨0, 18, 0, 0, 0⟩ = dtToSec ⟨0, 9, 0, 0, 0⟩ →
        overlapsWindow ⟨0, 9, 0, 0, 0⟩ ⟨0, 18, 0, 0, 0⟩ ⟨⟨0, 9, 0, 0, 0⟩, ⟨0, 18, 0, 0, 0⟩⟩ = true)
    ∧ (dtToSec ⟨0, 18, 0, 0, 0⟩ < dtToSec ⟨0, 9, 0, 0, 0⟩ →
        overlapsWindow ⟨0, 9, 0, 0, 0⟩ ⟨0, 18, 0, 0, 0⟩ ⟨⟨0, 9, 0, 0, 0⟩, ⟨0, 18, 0, 0, 0⟩⟩ = false)) :=
  ⟨by decide,
    claim_C1_overlap_characterization ⟨"e", "s", ⟨0, 9, 0, 0, 0⟩, ⟨0, 18, 0, 0, 0⟩⟩
      ⟨⟨0, 9, 0, 0, 0⟩, ⟨0, 18, 0, 0, 0⟩⟩ (by decide)⟩

/-- C2: when the window's begin and end times of day agree at `HH:mm`
precision, `really_between_times` returns true for every instance, without
examining the instance's bounds. -/
theorem claim_C2_allday_sentinel (inst : NormalizedInstance) (begin_time end_time : DateTime)
    (h : fmtHHmm begin_time = fmtHHmm end_time) :
    really_between_times inst begin_time end_time = some true := by
  simp [really_between_times, h]

/-- Witness for C2 at a zero-duration instance and begin/end times differing
only in seconds. -/
theorem claim_C2_witness :
    fmtHHmm ⟨0, 9, 0, 0, 0⟩ = fmtHHmm ⟨0, 9, 0, 30, 0⟩ ∧
    really_between_times ⟨"e", "s", ⟨5, 5, 0, 0, 0⟩, ⟨5, 5, 0, 0, 0⟩⟩
      ⟨0, 9, 0, 0, 0⟩ ⟨0, 9, 0, 30, 0⟩ = some true :=
  ⟨by decide,
    claim_C2_allday_sentinel ⟨"e", "s", ⟨5, 5, 0, 0, 0⟩, ⟨5, 5, 0, 0, 0⟩⟩
      ⟨0, 9, 0, 0, 0⟩ ⟨0, 9, 0, 30, 0⟩ (by decide)⟩

/-- C3: for a non-sentinel window, `really_between_times` is exactly an
overlap test against the daily windows ranging over the instance's own date
span (from the instance's begin day to its end day inclusive) — no other
date range enters the computation. -/
theorem claim_C3_instance_span (inst : NormalizedInstance) (begin_time end_time : DateTime)
    (hne : fmtHHmm begin_time ≠ fmtHHmm end_time)
    (hd : inst.begin_datetime.day ≤ inst.end_datetime.day) :
    really_between_times inst begin_time end_time =
      some (((List.range (inst.end_datetime.day - inst.begin_datetime.day + 1)).map
          (fun k => availOn inst.begin_datetime (inst.begin_datetime.day + k) begin_time end_time)).any
        (fun a => overlapsWindow inst.begin_datetime inst.end_datetime a)) := by
  rw [really_between_times, if_neg hne,
    list_availabilities_spec inst.begin_datetime inst.end_datetime begin_time end_time hd,
    Option.map_some']

/-- Witness for C3 at an instance spanning two calendar days and the window
09:00–18:00. -/
theorem claim_C3_witness :
    fmtHHmm ⟨0, 9, 0, 0, 0⟩ ≠ fmtHHmm ⟨0, 18, 0, 0, 0⟩ ∧
    (10 : Nat) ≤ 11 ∧
    really_between_times ⟨"e", "s", ⟨10, 20, 0, 0, 0⟩, ⟨11, 4, 0, 0, 0⟩⟩
        ⟨0, 9, 0, 0, 0⟩ ⟨0, 18, 0, 0, 0⟩ =
      some (((List.range (11 - 10 + 1)).map
          (fun k => availOn ⟨10, 20, 0, 0, 0⟩ (10 + k) ⟨0, 9, 0, 0, 0⟩ ⟨0, 18, 0, 0, 0⟩)).any
        (fun a => overlapsWindow ⟨10, 20, 0, 0, 0⟩ ⟨11, 4, 0, 0, 0⟩ a)) :=
  ⟨by decide, by decide,
    claim_C3_instance_span ⟨"e", "s", ⟨10, 20, 0, 0, 0⟩, ⟨11, 4, 0, 0, 0⟩⟩
      ⟨0, 9, 0, 0, 0⟩ ⟨0, 18, 0, 0, 0⟩ (by decide) (by decide)⟩

/-- C4: for a date range with begin day ≤ end day, the daily-window expansion
returns exactly one entry per calendar date from the begin date to the end
date inclusive, in ascending date order, whose bounds are that date (keeping
the begin date's second and timezone offset) merged with the window's begin
and end times of day. -/
theorem claim_C4_expansion_entries (bd ed bt et : DateTime) (h : bd.day ≤ ed.day) :
    ∃ l, list_availabilities_btwn_dates bd ed bt et = some l ∧
      l.length = ed.day - bd.day + 1 ∧
      ∀ k : Nat, ∀ hk : k < l.length,
        l.get ⟨k, hk⟩ =
          { bt := merge_date_time { bd with day := bd.day + k } bt,
            et := merge_date_time { bd with day := bd.day + k } et } := by
  refine ⟨_, list_availabilities_spec bd ed bt et h, by simp, ?_⟩
  intro k hk
  simp only [List.get_eq_getElem, List.getElem_map, List.getElem_range]
  rfl

/-- Witness for C4: the spec's example, four daily 09:00–18:00 windows over
the four-day range (days 12..15 standing for 2013-05-12..2013-05-15). -/
theorem claim_C4_witness :
    (12 : Nat) ≤ 15 ∧
    ∃ l, list_availabilities_btwn_dates ⟨12, 0, 0, 0, 0⟩ ⟨15, 0, 0, 0, 0⟩
          ⟨0, 9, 0, 0, 0⟩ ⟨0, 18, 0, 0, 0⟩ = some l ∧
      l.length = 15 - 12 + 1 ∧
      ∀ k : Nat, ∀ hk : k < l.length,
        l.get ⟨k, hk⟩ =
          { bt := merge_date_time ⟨12 + k, 0, 0, 0, 0⟩ ⟨0, 9, 0, 0, 0⟩,
            et := merge_date_time ⟨12 + k, 0, 0, 0, 0⟩ ⟨0, 18, 0, 0, 0⟩ } :=
  ⟨by decide,
    claim_C4_expansion_entries ⟨12, 0, 0, 0, 0⟩ ⟨15, 0, 0, 0, 0⟩
      ⟨0, 9, 0, 0, 0⟩ ⟨0, 18, 0, 0, 0⟩ (by decide)⟩

/-- C9: under the precondition begin day ≤ end day, the one-day-at-a-time
loop of the daily-window expansion terminates (fuel `ed.day - bd.day`
suffices, so the embedding returns `some`) and its result is non-empty. -/
theorem claim_C9_terminates_nonempty (bd ed bt et : DateTime) (h : bd.day ≤ ed.day) :
    ∃ l, list_availabilities_btwn_dates bd ed bt et = some l ∧ l ≠ [] := by
  refine ⟨_, list_availabilities_spec bd ed bt et h, ?_⟩
  simp [List.range_succ_eq_map]

/-- Witness for C9 at the four-day example range. -/
theorem claim_C9_witness :
    (12 : Nat) ≤ 15 ∧
    ∃ l, list_availabilities_btwn_dates ⟨12, 0, 0, 0, 0⟩ ⟨15, 0, 0, 0, 0⟩
        ⟨0, 9, 0, 0, 0⟩ ⟨0, 18, 0, 0, 0⟩ = some l ∧ l ≠ [] :=
  ⟨by decide,
    claim_C9_terminates_nonempty ⟨12, 0, 0, 0, 0⟩ ⟨15, 0, 0, 0, 0⟩
      ⟨0, 9, 0, 0, 0⟩ ⟨0, 18, 0, 0, 0⟩ (by decide)⟩

/-- C5: `reorg_instance` keeps only event id, summary, begin instant and end
instant; explicit start/end instants are copied through unchanged, and an
all-day date pair becomes 00:00 local time on the start date and 23:59 local
time on the end date. -/
theorem claim_C5_reorg (tzlocal : Int) (id summary : String) :
    (∀ b e : DateTime,
      reorg_instance tzlocal { id := id, summary := summary, timing := .instants b e } =
        some { event_id := id, summary := summary, begin_datetime := b, end_datetime := e })
    ∧ (∀ db de : Nat,
      reorg_instance tzlocal { id := id, summary := summary, timing := .dates db de } =
        some { event_id := id, summary := summary,
               begin_datetime := ⟨db, 0, 0, 0, tzlocal⟩,
               end_datetime := ⟨de, 23, 59, 0, tzlocal⟩ }) :=
  ⟨fun _ _ => rfl, fun _ _ => rfl⟩

/-- C6: `reorg_instance` hits its fatal assertion (modelled `none`) exactly
when the raw instance carries neither timing form; with either form present
it returns normally. -/
theorem claim_C6_assertion (tzlocal : Int) (inst : RawInstance) :
    reorg_instance tzlocal inst = none ↔ inst.timing = RawTiming.missing := by
  rcases inst with ⟨id, summary, timing⟩
  cases timing <;> simp [reorg_instance]

/-- `merge_date_time` ignores the second field of its time argument. -/
theorem merge_date_time_second_irrel (d t : DateTime) (s : Nat) :
    merge_date_time d { t with second := s } = merge_date_time d t := rfl

/-- The window-expansion loop ignores the second fields of the two time
arguments. -/
theorem availsGo_second_irrel (fuel : Nat) :
    ∀ (curr : DateTime) (edDay : Nat) (bt et : DateTime) (s1 s2 : Nat),
      availsGo fuel curr edDay { bt with second := s1 } { et with second := s2 } =
        availsGo fuel curr edDay bt et := by
  induction fuel with
  | zero => intro curr edDay bt et s1 s2; rfl
  | succ n ih =>
    intro curr edDay bt et s1 s2
    rw [availsGo, availsGo]
    by_cases h : curr.day = edDay
    · rw [if_pos h, if_pos h]
    · rw [if_neg h, if_neg h, ih]
      rfl

/-- C10: the core is insensitive to sub-minute detail in the time window:
changing only the seconds of the begin/end time-of-day arguments never
changes the result of `really_between_times`, on any instance. -/
theorem claim_C10_seconds_irrelevant (inst : NormalizedInstance)
    (begin_time end_time : DateTime) (s1 s2 : Nat) :
    really_between_times inst { begin_time with second := s1 }
        { end_time with second := s2 } =
      really_between_times inst begin_time end_time := by
  rw [really_between_times, really_between_times]
  have hb : fmtHHmm { begin_time with second := s1 } = fmtHHmm begin_time := rfl
  have he : fmtHHmm { end_time with second := s2 } = fmtHHmm end_time := rfl
  rw [hb, he]
  by_cases h : fmtHHmm begin_time = fmtHHmm end_time
  · rw [if_pos h, if_pos h]
  · rw [if_neg h, if_neg h, list_availabilities_btwn_dates, list_availabilities_btwn_dates,
      availsGo_second_irrel]
    rfl

/-- Successful runs of the inner instance loop keep, in order, exactly the
instances that reorganize and pass the busy test. -/
theorem collectLoop_eq (tzlocal : Int) (bt et : DateTime) :
    ∀ (raws : List RawInstance) (xs : List NormalizedInstance),
      collectLoop tzlocal bt et raws = some xs →
      xs = raws.filterMap (keepBusy tzlocal bt et) := by
  intro raws
  induction raws with
  | nil =>
    intro xs h
    simp only [collectLoop, Option.some.injEq] at h
    simp [← h]
  | cons raw raws ih =>
    intro xs h
    rw [collectLoop] at h
    cases hre : reorg_instance tzlocal raw with
    | none => simp [hre] at h
    | some inst =>
      simp only [hre] at h
      cases hbb : really_between_times inst bt et with
      | none => simp [hbb] at h
      | some b =>
        simp only [hbb] at h
        cases hcl : collectLoop tzlocal bt et raws with
        | none => simp [hcl] at h
        | some rest =>
          simp only [hcl, Option.map_some', Option.some.injEq] at h
          subst h
          have hk : keepBusy tzlocal bt et raw = (bif b then some inst else none) := by
            simp [keepBusy, hre, hbb]
          cases b <;> simp [List.filterMap_cons, hk, ih rest hcl]

/-- Successful runs of the outer pre-event loop concatenate, in discovery
order, the retained instances of each pre-event. -/
theorem collectPre_eq (tzlocal : Int) (service : GService) (bt et : DateTime) :
    ∀ (ps : List (String × PreEvent)) (out : List NormalizedInstance),
      collectPre tzlocal service bt et ps = some out →
      out = ps.flatMap
        (fun p => (instancesOf service p).filterMap (keepBusy tzlocal bt et)) := by
  intro ps
  induction ps with
  | nil =>
    intro out h
    simp only [collectPre, Option.some.injEq] at h
    simp [← h]
  | cons p ps ih =>
    intro out h
    rw [collectPre] at h
    cases hcl : collectLoop tzlocal bt et (instancesOf service p) with
    | none => simp [hcl] at h
    | some here =>
      simp only [hcl, Option.some_bind] at h
      cases hcp : collectPre tzlocal service bt et ps with
      | none => simp [hcp] at h
      | some rest =>
        simp only [hcp, Option.map_some', Option.some.injEq] at h
        subst h
        rw [List.flatMap_cons, collectLoop_eq tzlocal bt et _ here hcl, ih rest hcp]

/-- C7: whenever the collection pipeline returns, its output lists, in
discovery order, exactly the normalized instances passing the busy test
among the instances of the non-transparent events of the selected calendars:
transparent events are skipped outright, each recurrence instance of a
recurring event is reorganized and tested independently, and the single
fetched instance of a non-recurring event likewise. -/
theorem claim_C7_pipeline (tzlocal : Int) (service : GService)
    (selected_cal : List String) (begin_time end_time : DateTime)
    (out : List NormalizedInstance)
    (h : list_instances_btwn_times_in_dates tzlocal service selected_cal
          begin_time end_time = some out) :
    out = selected_cal.flatMap (fun cal_id =>
      ((service.eventsList cal_id).filter (fun e => !e.transparent)).flatMap (fun e =>
        (instancesOf service (cal_id, e)).filterMap
          (keepBusy tzlocal begin_time end_time))) := by
  have h1 := collectPre_eq tzlocal service begin_time end_time
    (pre_events service selected_cal) out h
  rw [h1, pre_events, List.flatMap_assoc]
  refine congrArg (List.flatMap selected_cal) (funext fun cal_id => ?_)
  rw [List.flatMap_map]

/-- Witness for C7 on the fixture service: the transparent event and the
out-of-window non-recurring event are dropped; the one busy recurrence
instance is retained. -/
theorem claim_C7_witness :
    list_instances_btwn_times_in_dates 0 svcW ["cal1"] ⟨0, 9, 0, 0, 0⟩ ⟨0, 18, 0, 0, 0⟩ =
      some [ { event_id := "ev_r_1", summary := "recur",
               begin_datetime := ⟨13, 10, 0, 0, 0⟩, end_datetime := ⟨13, 11, 0, 0, 0⟩ } ] ∧
    [ ({ event_id := "ev_r_1", summary := "recur",
         begin_datetime := ⟨13, 10, 0, 0, 0⟩,
         end_datetime := ⟨13, 11, 0, 0, 0⟩ } : NormalizedInstance) ] =
      (["cal1"] : List String).flatMap (fun cal_id =>
        ((svcW.eventsList cal_id).filter (fun e => !e.transparent)).flatMap (fun e =>
          (instancesOf svcW (cal_id, e)).filterMap
            (keepBusy 0 ⟨0, 9, 0, 0, 0⟩ ⟨0, 18, 0, 0, 0⟩))) :=
  ⟨by decide,
    claim_C7_pipeline 0 svcW ["cal1"] ⟨0, 9, 0, 0, 0⟩ ⟨0, 18, 0, 0, 0⟩
      [ { event_id := "ev_r_1", summary := "recur",
          begin_datetime := ⟨13, 10, 0, 0, 0⟩, end_datetime := ⟨13, 11, 0, 0, 0⟩ } ]
      (by decide)⟩

/-- The Python tuple order on sort keys is reflexive. -/
theorem keyLe_refl (x : String × String × String) : keyLe x x = true := by
  simp [keyLe]

/-- The Python tuple order on sort keys is transitive. -/
theorem keyLe_trans (x y z : String × String × String)
    (h1 : keyLe x y) (h2 : keyLe y z) : keyLe x z := by
  simp only [keyLe, Bool.or_eq_true, Bool.and_eq_true, decide_eq_true_eq,
    Bool.not_eq_true', decide_eq_false_iff_not] at h1 h2 ⊢
  rcases h1 with h1 | ⟨e1, h1⟩
  · rcases h2 with h2 | ⟨e2, h2⟩
    · exact Or.inl (lt_trans h1 h2)
    · exact Or.inl (e2 ▸ h1)
  · rcases h2 with h2 | ⟨e2, h2⟩
    · exact Or.inl (e1 ▸ h2)
    · refine Or.inr ⟨e1.trans e2, ?_⟩
      rcases h1 with h1 | ⟨f1, h1⟩
      · rcases h2 with h2 | ⟨f2, h2⟩
        · exact Or.inl (lt_trans h1 h2)
        · exact Or.inl (f2 ▸ h1)
      · rcases h2 with h2 | ⟨f2, h2⟩
        · exact Or.inl (f1 ▸ h2)
        · exact Or.inr ⟨f1.trans f2, not_lt.mpr (le_trans (not_lt.mp h1) (not_lt.mp h2))⟩

/-- The Python tuple order on sort keys is total. -/
theorem keyLe_total (x y : String × String × String) : keyLe x y || keyLe y x := by
  simp only [keyLe, Bool.or_eq_true, Bool.and_eq_true, decide_eq_true_eq,
    Bool.not_eq_true', decide_eq_false_iff_not]
  rcases lt_trichotomy x.1 y.1 with h | h | h
  · tauto
  · rcases lt_trichotomy x.2.1 y.2.1 with h2 | h2 | h2
    · tauto
    · rcases le_or_lt x.2.2 y.2.2 with h3 | h3
      · exact Or.inl (Or.inr ⟨h, Or.inr ⟨h2, not_lt.mpr h3⟩⟩)
      · exact Or.inr (Or.inr ⟨h.symm, Or.inr ⟨h2.symm, not_lt.mpr h3.le⟩⟩)
    · tauto
  · tauto

/-- C8: for every list, `rank` sorts ascending by the (primary, selected,
summary) key and is a permutation of its input; it is stable (any key-equal
pair in input order stays in that order); it sorts the spec's example
`[C, A, B]` to `[A, B, C]`; and it maps empty input to empty output. -/
theorem claim_C8_rank (l : List CalDesc) :
    (rank l).Pairwise (fun x y => keyLe (cal_sort_key x) (cal_sort_key y) = true)
    ∧ (rank l).Perm l
    ∧ (∀ a b : CalDesc, cal_sort_key a = cal_sort_key b →
        List.Sublist [a, b] l → List.Sublist [a, b] (rank l))
    ∧ rank [calC, calA, calB] = [calA, calB, calC]
    ∧ rank ([] : List CalDesc) = [] := by
  have trans' : ∀ x y z : CalDesc,
      keyLe (cal_sort_key x) (cal_sort_key y) →
      keyLe (cal_sort_key y) (cal_sort_key z) →
      keyLe (cal_sort_key x) (cal_sort_key z) :=
    fun x y z h1 h2 => keyLe_trans (cal_sort_key x) (cal_sort_key y) (cal_sort_key z) h1 h2
  have total' : ∀ x y : CalDesc,
      keyLe (cal_sort_key x) (cal_sort_key y) || keyLe (cal_sort_key y) (cal_sort_key x) :=
    fun x y => keyLe_total (cal_sort_key x) (cal_sort_key y)
  refine ⟨List.sorted_mergeSort trans' total' l, List.mergeSort_perm l _, ?_, ?_, ?_⟩
  · intro a b hk hab
    refine List.pair_sublist_mergeSort trans' total' ?_ hab
    show keyLe (cal_sort_key a) (cal_sort_key b) = true
    rw [hk]
    exact keyLe_refl (cal_sort_key b)
  · simp +decide [rank, List.mergeSort, List.merge, keyLe, cal_sort_key, calA, calB, calC]
  · simp [rank, List.mergeSort]

/-- Witness for C8: the unconditional conjuncts at a concrete list, and the
stability conjunct discharged on a key-equal pair (calendar A twice). -/
theorem claim_C8_witness :
    ((rank [calC, calA, calA]).Pairwise
        (fun x y => keyLe (cal_sort_key x) (cal_sort_key y) = true)
      ∧ (rank [calC, calA, calA]).Perm [calC, calA, calA]
      ∧ List.Sublist [calA, calA] (rank [calC, calA, calA]))
    ∧ cal_sort_key calA = cal_sort_key calA
    ∧ List.Sublist [calA, calA] [calC, calA, calA] :=
  ⟨⟨(claim_C8_rank [calC, calA, calA]).1,
    (claim_C8_rank [calC, calA, calA]).2.1,
    (claim_C8_rank [calC, calA, calA]).2.2.1 calA calA rfl
      ((List.Sublist.refl [calA, calA]).cons calC)⟩,
   rfl, (List.Sublist.refl [calA, calA]).cons calC⟩

end Gcal
